import Mathlib

/-!
Verification development for the hypersdk-wasm contract runtime.

The definitions below are a shallow embedding of the Go sources:
  * `x/contracts/runtime/contract.go` (CallInfo fuel helpers, ContractContext
    serialization, ContractInstance.call),
  * `x/contracts/runtime` validator files (DefaultValidator and its checks),
  * `x/contracts/simulator/state/state.go` (SimulatorState and ContractState),
  * the `prependAccountToKey` / `prefixedState` wrapper of the runtime package.

Byte strings are `List Nat`, Go's `uint32`/`uint64` conversions are explicit
`% 2^32` / `% 2^64` truncations, Go maps are association lists where the most
recent write shadows older entries, and fallible Go functions return `Except`.
-/

/-- Byte strings (Go `[]byte`): lists of naturals, one per byte. -/
abbrev Bytes := List Nat

/-- Go conversion to `uint32`: truncation modulo `2^32`. -/
def u32 (n : Nat) : Nat := n % 4294967296

/-- Go arithmetic on `uint64`: truncation modulo `2^64`. -/
def u64 (n : Nat) : Nat := n % 18446744073709551616

/-- The `k` low-order base-256 digits of `n`, least significant first. -/
def leBytes : Nat → Nat → Bytes
  | 0, _ => []
  | k + 1, n => n % 256 :: leBytes k (n / 256)

/-- `binary.LittleEndian.PutUint64` / borsh `u64`: 8 bytes, little-endian. -/
def u64LEbytes (n : Nat) : Bytes := leBytes 8 n

/-- `binary.BigEndian.PutUint64`: 8 bytes, most significant first. -/
def u64BEbytes (n : Nat) : Bytes := (leBytes 8 n).reverse

/-- `binary.BigEndian.Uint64`: reads the first 8 bytes as a big-endian word.
(The Go function panics when fewer than 8 bytes are present; the simulator
only ever stores 8-byte balance values, where the two agree.) -/
def beUint64 (b : Bytes) : Nat := (b.take 8).foldl (fun acc x => acc * 256 + x) 0

/-- Go's builtin `copy(dst, src)`: overwrites the first
`min (dst.length) (src.length)` elements of `dst` with those of `src`. -/
def goCopy (dst src : Bytes) : Bytes := src.take dst.length ++ dst.drop src.length

/-- Go's `copy(dst[off:], src)` viewed as a whole-buffer update. -/
def goCopyAt (dst : Bytes) (off : Nat) (src : Bytes) : Bytes :=
  dst.take off ++ goCopy (dst.drop off) src

/-- `codec.EmptyAddress`: the all-zero 33-byte address. -/
def emptyAddress : Bytes := List.replicate 33 0

/-! ## Simulator state (`x/contracts/simulator/state/state.go`)

`SimulatorState.data` is a Go `map[string][]byte`; we model it as an
association list in which the head-most binding for a key is current. -/

/-- Lookup in the modelled Go map: first binding wins. -/
def mapGet : List (Bytes × Bytes) → Bytes → Option Bytes
  | [], _ => none
  | (k, v) :: rest, key => if key = k then some v else mapGet rest key

/-- Map update (`m[k] = v`): prepend, shadowing any older binding. -/
def mapSet (m : List (Bytes × Bytes)) (k v : Bytes) : List (Bytes × Bytes) :=
  (k, v) :: m

/-- Map deletion (`delete(m, k)`): drop every binding for `k`. -/
def mapDel (m : List (Bytes × Bytes)) (k : Bytes) : List (Bytes × Bytes) :=
  m.filter (fun kv => ¬ kv.1 = k)

/-- `SimulatorState` (the cgo id, mutex and callback plumbing are process
bookkeeping with no bearing on the state semantics). -/
structure SimulatorState where
  data : List (Bytes × Bytes)
deriving DecidableEq

/-- `SimulatorState.GetValue`: empty keys are rejected; an absent key yields
`(nil, nil)`, modelled as `Except.ok none`. -/
def SimGetValue (s : SimulatorState) (key : Bytes) : Except String (Option Bytes) :=
  if key.length = 0 then .error "empty key" else .ok (mapGet s.data key)

/-- `SimulatorState.Insert`. -/
def SimInsert (s : SimulatorState) (key value : Bytes) : Except String SimulatorState :=
  if key.length = 0 then .error "empty key" else .ok ⟨mapSet s.data key value⟩

/-- `SimulatorState.Remove`. -/
def SimRemove (s : SimulatorState) (key : Bytes) : Except String SimulatorState :=
  if key.length = 0 then .error "empty key" else .ok ⟨mapDel s.data key⟩

/-- `balanceKey`: `fmt.Sprintf("balance:%s", addr)`, modelled as the ASCII
bytes of "balance:" followed by the address bytes the `%s` verb renders. -/
def balanceKey (addr : Bytes) : Bytes := [98, 97, 108, 97, 110, 99, 101, 58] ++ addr

/-- `SimulatorState.GetBalance`: absent balances read as 0. -/
def SimGetBalance (s : SimulatorState) (addr : Bytes) : Nat :=
  match mapGet s.data (balanceKey addr) with
  | none => 0
  | some v => beUint64 v

/-- The direct `s.data[balanceKey(a)] = bytes` writes in `TransferBalance`. -/
def SimSetRaw (s : SimulatorState) (k v : Bytes) : SimulatorState :=
  ⟨mapSet s.data k v⟩

/-- `SimulatorState.TransferBalance`: a transfer from `codec.EmptyAddress`
mints (no source check or deduction); otherwise the source must hold the
amount, which is moved with `uint64` arithmetic. -/
def SimTransferBalance (s : SimulatorState) (src dst : Bytes) (amount : Nat) :
    Except String SimulatorState := do
  let s1 ←
    if src ≠ emptyAddress then
      let fromBalance := SimGetBalance s src
      if fromBalance < amount then
        Except.error "insufficient balance"
      else
        pure (SimSetRaw s (balanceKey src) (u64BEbytes (fromBalance - amount)))
    else
      pure s
  let toBalance := SimGetBalance s1 dst
  pure (SimSetRaw s1 (balanceKey dst) (u64BEbytes (u64 (toBalance + amount))))

/-- `SimulatorState.SetAccountContract`: stores the contract id under the raw
account bytes. -/
def SimSetAccountContract (s : SimulatorState) (account contractID : Bytes) :
    Except String SimulatorState :=
  SimInsert s account contractID

/-- `SimulatorState.GetAccountContract`, translated exactly: the Go code
declares `var contractID runtime.ContractID` (a nil slice, as `ContractID` is
`[]byte`) and then `copy(contractID[:], value)`, which copies zero bytes. -/
def SimGetAccountContract (s : SimulatorState) (account : Bytes) : Except String Bytes :=
  match SimGetValue s account with
  | .error e => .error e
  | .ok v =>
    let value := v.getD []
    if value.length ≠ 32 then .error "invalid contract ID length"
    else
      let contractID : Bytes := []
      .ok (goCopy contractID value)

/-! ### Contract-scoped state views

The simulator's `ContractState` prefixes the raw 33-byte address directly
(`append(c.address[:], key...)`); the runtime's `prefixedState` wrapper goes
through `prependAccountToKey`, which inserts a `'/'` (byte 47) separator. -/

/-- `ContractState.GetValue`: key prefixed with the bare contract address. -/
def ContractStateGetValue (s : SimulatorState) (address key : Bytes) :
    Except String (Option Bytes) :=
  if key.length = 0 then .error "empty key" else SimGetValue s (address ++ key)

/-- `ContractState.Insert`. -/
def ContractStateInsert (s : SimulatorState) (address key value : Bytes) :
    Except String SimulatorState :=
  if key.length = 0 then .error "empty key" else SimInsert s (address ++ key) value

/-- `ContractState.Remove`. -/
def ContractStateRemove (s : SimulatorState) (address key : Bytes) :
    Except String SimulatorState :=
  if key.length = 0 then .error "empty key" else SimRemove s (address ++ key)

/-- `prependAccountToKey` (runtime package), translated from its
`make`/`copy` sequence: a zeroed buffer of length
`len(account)+len(key)+1` receives the account, then "/", then the key. -/
def prependAccountToKey (account key : Bytes) : Bytes :=
  goCopyAt
    (goCopyAt (goCopy (List.replicate (account.length + key.length + 1) 0) account)
      account.length [47])
    (account.length + 1) key

/-- `prefixedState.GetValue` with the simulator store as the inner mutable. -/
def PrefixedGetValue (inner : SimulatorState) (address key : Bytes) :
    Except String (Option Bytes) :=
  SimGetValue inner (prependAccountToKey address key)

/-- `prefixedState.Insert` with the simulator store as the inner mutable. -/
def PrefixedInsert (inner : SimulatorState) (address key value : Bytes) :
    Except String SimulatorState :=
  SimInsert inner (prependAccountToKey address key) value

/-- `prefixedState.Remove` with the simulator store as the inner mutable. -/
def PrefixedRemove (inner : SimulatorState) (address key : Bytes) :
    Except String SimulatorState :=
  SimRemove inner (prependAccountToKey address key)

/-! ## Fuel accounting (`contract.go`, `CallInfo.ConsumeFuel`)

The store's fuel cell is a `uint64`; `GetFuel`/`SetFuel` cannot fail when
fuel metering is enabled (it always is), so the embedding takes the current
counter and returns the optional error together with the new counter. -/

/-- `CallInfo.ConsumeFuel`: fail fast without deducting when short of fuel. -/
def ConsumeFuel (remaining n : Nat) : Option String × Nat :=
  if remaining < n then (some "out of fuel", remaining) else (none, remaining - n)

/-! ## Contract invocation (`contract.go`, `ContractInstance.call`)

The wasmtime store, instance, linker and external state manager are the
call's environment. Observable side effects — the balance-transfer attempt,
the write of the parameter buffer into linear memory, and the dispatch of the
guest entry point — are recorded as an event trace, in program order. -/

/-- One observable host-side action of `ContractInstance.call`. -/
inductive HostEvent where
  | transferAttempt (src dst : Bytes) (amount : Nat)
  | memWrite (offset : Nat) (data : Bytes)
  | guestCall (name : String) (offset : Nat)
deriving DecidableEq

/-- The call's environment: the state manager's transfer outcome, the guest
`alloc` export, the export table lookup, the guest run outcome, and the
result the guest deposits via `set_result`. -/
structure HostEnv where
  transfer : Bytes → Bytes → Nat → Except String Unit
  alloc : Nat → Except String Nat
  hasFunction : String → Bool
  guestRun : Except String Unit
  result : Bytes

/-- The store-visible execution state: the `uint64` fuel cell plus the trace
of observable actions. -/
structure ExecState where
  fuel : Nat
  events : List HostEvent

/-- `CallInfo` (the fields `ContractInstance.call` reads). -/
structure CallInfo where
  actor : Bytes
  contract : Bytes
  functionName : String
  params : Bytes
  fuel : Nat
  height : Nat
  timestamp : Nat
  actionID : Bytes
  value : Nat

/-- `ContractContext` (contract.go). -/
structure ContractContext where
  contract : Bytes
  actor : Bytes
  height : Nat
  timestamp : Nat
  actionID : Bytes

/-- Borsh encoding of a `codec.Address` (a fixed-size `[33]byte` array):
raw bytes, no length tag. Modelled from the borsh specification, as the
encoder is an external library. -/
def borshAddressBytes (a : Bytes) : Bytes := a

/-- Borsh encoding of a `uint64`: 8 bytes little-endian (borsh spec). -/
def borshU64Bytes (n : Nat) : Bytes := u64LEbytes n

/-- `ContractContext.customSerialize`: borsh for both addresses and both
integers, then the raw 32 action-id bytes. -/
def customSerialize (c : ContractContext) : Bytes :=
  borshAddressBytes c.contract ++ borshAddressBytes c.actor ++
    borshU64Bytes c.height ++ borshU64Bytes c.timestamp ++ c.actionID

/-- `ContractInstance.writeToMemory`: `alloc(len)` then copy the buffer into
linear memory at the returned offset (the copy is the `memWrite` event). -/
def writeToMemory (env : HostEnv) (st : ExecState) (data : Bytes) :
    Except String Nat × ExecState :=
  match env.alloc data.length with
  | .error e => (.error e, st)
  | .ok off => (.ok off, ⟨st.fuel, st.events ++ [HostEvent.memWrite off data]⟩)

/-- The part of `ContractInstance.call` after the value transfer: serialize
the context plus params, place them in guest memory, resolve the entry point
and invoke it. -/
def contractCallBody (env : HostEnv) (st : ExecState) (ci : CallInfo) :
    Except String Bytes × ExecState :=
  let ctx : ContractContext := ⟨ci.contract, ci.actor, ci.height, ci.timestamp, ci.actionID⟩
  let buf := customSerialize ctx ++ ci.params
  match writeToMemory env st buf with
  | (.error e, st2) => (.error e, st2)
  | (.ok off, st2) =>
    if env.hasFunction ci.functionName then
      let st3 : ExecState := ⟨st2.fuel, st2.events ++ [HostEvent.guestCall ci.functionName off]⟩
      match env.guestRun with
      | .error e => (.error e, st3)
      | .ok _ => (.ok env.result, st3)
    else
      (.error ("function " ++ ci.functionName ++ " does not exist"), st2)

/-- `ContractInstance.call`: top up the store's fuel by `CallInfo.Fuel`, run
the attached-value transfer when `Value > 0` (aborting on failure), then
marshal parameters and dispatch the guest entry point. -/
def contractCall (env : HostEnv) (st0 : ExecState) (ci : CallInfo) :
    Except String Bytes × ExecState :=
  let st : ExecState := ⟨u64 (st0.fuel + ci.fuel), st0.events⟩
  if ci.value > 0 then
    let st1 : ExecState :=
      ⟨st.fuel, st.events ++ [HostEvent.transferAttempt ci.actor ci.contract ci.value]⟩
    match env.transfer ci.actor ci.contract ci.value with
    | .error e => (.error e, st1)
    | .ok _ => contractCallBody env st1 ci
  else
    contractCallBody env st ci

/-! ## Module validation (`validator.go`, `validators` package)

A parsed wasmtime module is observed by the validator only through its export
and import lists (names and extern types), which is how we model it. The
engine's binary parser is the `parse` oracle handed to `ValidateModule`. -/

/-- WebAssembly value kinds (`wasmtime.ValKind`). -/
inductive ValKind where
  | i32 | i64 | f32 | f64 | externref | funcref
deriving DecidableEq

/-- The extern type of an export or import, as the validator inspects it:
`FuncType`, `GlobalType`, `MemoryType` (min pages, optional max pages) or
`TableType` (min size, optional max size). -/
inductive ExternType where
  | func (params results : List ValKind)
  | globalVar
  | mem (minPages : Nat) (maxPages : Option Nat)
  | table (minSize : Nat) (maxSize : Option Nat)
deriving DecidableEq

/-- Whether an extern type is a function type (`FuncType() != nil`). -/
def ExternType.isFuncT : ExternType → Bool
  | .func _ _ => true
  | _ => false

/-- Whether an extern type is a global type (`GlobalType() != nil`). -/
def ExternType.isGlobalT : ExternType → Bool
  | .globalVar => true
  | _ => false

/-- A module export: name and extern type. -/
structure ExportDecl where
  name : String
  typ : ExternType
deriving DecidableEq

/-- A module import: module name, optional item name, extern type. -/
structure ImportDecl where
  module : String
  name : Option String
  typ : ExternType
deriving DecidableEq

/-- A parsed module, as visible through `mod.Exports()` / `mod.Imports()`. -/
structure WasmModule where
  exports : List ExportDecl
  imports : List ImportDecl
deriving DecidableEq

/-- `ValidationError` (runtime package): message, optional rule name,
optional wrapped cause (modelled by its message). -/
structure ValidationError where
  message : String
  rule : String
  cause : Option String
deriving DecidableEq

/-- `ErrResourceLimitExceeded`, the sentinel cause used by the validator. -/
def errResourceLimitExceeded : String := "resource limit exceeded"

/-- `ResourceLimits` (all fields `uint32` in the source). -/
structure ResourceLimits where
  MaxContractSize : Nat
  MaxFunctions : Nat
  MaxImports : Nat
  MaxExports : Nat
  MaxGlobals : Nat
  MaxInitialMemoryPages : Nat
  MaxMemoryPages : Nat
  MaxTableSize : Nat
deriving DecidableEq

/-- `DefaultResourceLimits()`. -/
def DefaultResourceLimits : ResourceLimits :=
  ⟨1048576, 1000, 100, 100, 100, 4, 16, 10000⟩

/-- `SecurityRuleType`. -/
inductive SecurityRuleType where
  | instruction | floatingPoint | memory | custom
deriving DecidableEq

/-- `SecurityRule`; the optional `Validator` closure returns an error message
or nothing. -/
structure SecurityRule where
  ruleType : SecurityRuleType
  Name : String
  AllowList : List String
  DenyList : List String
  Validator : Option (WasmModule → Option String)

/-- `ValidatorConfig`. -/
structure ValidatorConfig where
  ResourceLimits : ResourceLimits
  DefaultRules : Bool
  CustomRules : List SecurityRule

/-- `DefaultValidator`: default rules, custom rules and the configuration. -/
structure DefaultValidator where
  defaultRules : List SecurityRule
  customRules : List SecurityRule
  config : ValidatorConfig

/-- `defaultSecurityRules()`: deny table mutation instructions, deny
`memory.grow`. -/
def defaultSecurityRules : List SecurityRule :=
  [⟨.instruction, "default-instructions", [],
      ["table.get", "table.set", "table.size", "table.grow", "table.fill",
        "table.init", "elem.drop", "data.drop", "table.copy"], none⟩,
    ⟨.memory, "default-memory", [], ["memory.grow"], none⟩]

/-- `NewDefaultValidator(config)`. -/
def NewDefaultValidator (cfg : ValidatorConfig) : DefaultValidator :=
  ⟨if cfg.DefaultRules then defaultSecurityRules else [], cfg.CustomRules, cfg⟩

/-- The printed name of a value kind (`validateType`'s switch). -/
def valKindName : ValKind → String
  | .i32 => "i32"
  | .i64 => "i64"
  | .f32 => "f32"
  | .f64 => "f64"
  | .externref => "externref"
  | .funcref => "funcref"

/-- `validateType`: with a non-empty deny list, reject a value kind whose
name is denied. Returns the inner error message, to be wrapped by callers. -/
def validateType (kind : ValKind) (rule : SecurityRule) : Option String :=
  if rule.DenyList.length = 0 then none
  else if (valKindName kind) ∈ rule.DenyList then
    some ("type " ++ valKindName kind ++ " is not allowed")
  else none

/-- First denied kind in a list of parameter or result kinds. -/
def firstDeniedKind (kinds : List ValKind) (rule : SecurityRule) : Option String :=
  match kinds with
  | [] => none
  | k :: rest =>
    match validateType k rule with
    | some e => some e
    | none => firstDeniedKind rest rule

/-- `validateInstructions`, export half: walk exported function signatures
and reject the first denied parameter or result kind. -/
def validateInstructionsExports (exports : List ExportDecl) (rule : SecurityRule) :
    Except ValidationError Unit :=
  match exports with
  | [] => .ok ()
  | e :: rest =>
    match e.typ with
    | .func ps rs =>
      match firstDeniedKind ps rule with
      | some err =>
        .error ⟨"invalid parameter type in export " ++ e.name, rule.Name, some err⟩
      | none =>
        match firstDeniedKind rs rule with
        | some err =>
          .error ⟨"invalid result type in export " ++ e.name, rule.Name, some err⟩
        | none => validateInstructionsExports rest rule
    | _ => validateInstructionsExports rest rule

/-- `validateInstructions`, import half. -/
def validateInstructionsImports (imports : List ImportDecl) (rule : SecurityRule) :
    Except ValidationError Unit :=
  match imports with
  | [] => .ok ()
  | i :: rest =>
    match i.typ with
    | .func ps rs =>
      match firstDeniedKind ps rule with
      | some err =>
        .error ⟨"invalid parameter type in import " ++ i.module ++ "::" ++ i.name.getD "",
          rule.Name, some err⟩
      | none =>
        match firstDeniedKind rs rule with
        | some err =>
          .error ⟨"invalid result type in import " ++ i.module ++ "::" ++ i.name.getD "",
            rule.Name, some err⟩
        | none => validateInstructionsImports rest rule
    | _ => validateInstructionsImports rest rule

/-- `validateInstructions`: exports first, then imports. -/
def validateInstructions (mod : WasmModule) (rule : SecurityRule) :
    Except ValidationError Unit := do
  validateInstructionsExports mod.exports rule
  validateInstructionsImports mod.imports rule

/-- Whether a value kind is `f32` or `f64`. -/
def ValKind.isFloat : ValKind → Bool
  | .f32 => true
  | .f64 => true
  | _ => false

/-- `validateFloatingPoint`: the first exported function signature using a
float decides — allowed when the rule has an allow list, rejected otherwise. -/
def validateFloatingPoint (exports : List ExportDecl) (rule : SecurityRule) :
    Except ValidationError Unit :=
  match exports with
  | [] => .ok ()
  | e :: rest =>
    match e.typ with
    | .func ps rs =>
      if ps.any ValKind.isFloat ∨ rs.any ValKind.isFloat then
        if rule.AllowList.length > 0 then .ok ()
        else .error ⟨"floating point operations not allowed", rule.Name, none⟩
      else validateFloatingPoint rest rule
    | _ => validateFloatingPoint rest rule

/-- `validateMemoryOperations`: for each exported memory, a deny list naming
`memory.grow` forbids unbounded (maximum-less) memories; a non-empty allow
list short-circuits the remaining checks. -/
def validateMemoryOperations (exports : List ExportDecl) (rule : SecurityRule) :
    Except ValidationError Unit :=
  match exports with
  | [] => .ok ()
  | e :: rest =>
    match e.typ with
    | .mem _ maxPages =>
      if "memory.grow" ∈ rule.DenyList ∧ maxPages = none then
        .error ⟨"unbounded memory growth not allowed", rule.Name, none⟩
      else if rule.AllowList.length > 0 then .ok ()
      else validateMemoryOperations rest rule
    | _ => validateMemoryOperations rest rule

/-- Dispatch of a single security rule by its type tag. -/
def applySecurityRule (mod : WasmModule) (rule : SecurityRule) :
    Except ValidationError Unit :=
  match rule.ruleType with
  | .instruction => validateInstructions mod rule
  | .floatingPoint => validateFloatingPoint mod.exports rule
  | .memory => validateMemoryOperations mod.exports rule
  | .custom =>
    match rule.Validator with
    | none => .ok ()
    | some f =>
      match f mod with
      | none => .ok ()
      | some err => .error ⟨"custom validation failed", rule.Name, some err⟩

/-- `DefaultValidator.ValidateSecurityRules`: rules in order, first error. -/
def ValidateSecurityRules (mod : WasmModule) : List SecurityRule →
    Except ValidationError Unit
  | [] => .ok ()
  | rule :: rest => do
    applySecurityRule mod rule
    ValidateSecurityRules mod rest

/-- Function count of `DefaultValidator.ValidateResourceLimits`: the
`uint32` counter over function-typed exports then function-typed imports. -/
def vFuncCount (mod : WasmModule) : Nat :=
  u32 (mod.exports.countP (fun e => e.typ.isFuncT) +
    mod.imports.countP (fun i => i.typ.isFuncT))

/-- Global count: the `uint32` counter over global-typed exports
and imports. -/
def vGlobalCount (mod : WasmModule) : Nat :=
  u32 (mod.exports.countP (fun e => e.typ.isGlobalT) +
    mod.imports.countP (fun i => i.typ.isGlobalT))

/-- The memory-limit loop of `ValidateResourceLimits`: for each exported
memory, `uint32(Minimum())` and any declared `uint32(Maximum())` must not
exceed `MaxMemoryPages`. -/
def checkMemoryLimits (exports : List ExportDecl) (limits : ResourceLimits) :
    Except ValidationError Unit :=
  match exports with
  | [] => .ok ()
  | e :: rest =>
    match e.typ with
    | .mem minPages maxPages =>
      if u32 minPages > limits.MaxMemoryPages then
        .error ⟨"minimum memory pages " ++ toString (u32 minPages) ++ " exceeds limit " ++
          toString limits.MaxMemoryPages, "resource-limits", some errResourceLimitExceeded⟩
      else
        match maxPages with
        | some m =>
          if u32 m > limits.MaxMemoryPages then
            .error ⟨"maximum memory pages " ++ toString (u32 m) ++ " exceeds limit " ++
              toString limits.MaxMemoryPages, "resource-limits", some errResourceLimitExceeded⟩
          else checkMemoryLimits rest limits
        | none => checkMemoryLimits rest limits
    | _ => checkMemoryLimits rest limits

/-- The table-limit loop of `ValidateResourceLimits`. -/
def checkTableLimits (exports : List ExportDecl) (limits : ResourceLimits) :
    Except ValidationError Unit :=
  match exports with
  | [] => .ok ()
  | e :: rest =>
    match e.typ with
    | .table minSize maxSize =>
      if u32 minSize > limits.MaxTableSize then
        .error ⟨"minimum table size " ++ toString (u32 minSize) ++ " exceeds limit " ++
          toString limits.MaxTableSize, "resource-limits", some errResourceLimitExceeded⟩
      else
        match maxSize with
        | some m =>
          if u32 m > limits.MaxTableSize then
            .error ⟨"maximum table size " ++ toString (u32 m) ++ " exceeds limit " ++
              toString limits.MaxTableSize, "resource-limits", some errResourceLimitExceeded⟩
          else checkTableLimits rest limits
        | none => checkTableLimits rest limits
    | _ => checkTableLimits rest limits

/-- `DefaultValidator.ValidateResourceLimits`: function count, export
count, import count, global count, memory limits, table limits — in that
order, first failure aborts, every error carries rule "resource-limits". -/
def ValidateResourceLimits (mod : WasmModule) (limits : ResourceLimits) :
    Except ValidationError Unit :=
  if vFuncCount mod > limits.MaxFunctions then
    .error ⟨"function count " ++ toString (vFuncCount mod) ++ " exceeds limit " ++
      toString limits.MaxFunctions, "resource-limits", some errResourceLimitExceeded⟩
  else if u32 mod.exports.length > limits.MaxExports then
    .error ⟨"export count " ++ toString mod.exports.length ++ " exceeds limit " ++
      toString limits.MaxExports, "resource-limits", some errResourceLimitExceeded⟩
  else if u32 mod.imports.length > limits.MaxImports then
    .error ⟨"import count " ++ toString mod.imports.length ++ " exceeds limit " ++
      toString limits.MaxImports, "resource-limits", some errResourceLimitExceeded⟩
  else if vGlobalCount mod > limits.MaxGlobals then
    .error ⟨"global count " ++ toString (vGlobalCount mod) ++ " exceeds limit " ++
      toString limits.MaxGlobals, "resource-limits", some errResourceLimitExceeded⟩
  else do
    checkMemoryLimits mod.exports limits
    checkTableLimits mod.exports limits

/-- The size check opening `DefaultValidator.ValidateModule`:
`uint32(len(bytes)) > MaxContractSize`. -/
def contractSizeExceeded (bytes : Bytes) (limits : ResourceLimits) : Bool :=
  u32 bytes.length > limits.MaxContractSize

/-- `DefaultValidator.ValidateModule` after its size check: parse, default
security rules, custom security rules (when any), resource limits. -/
def ValidateModuleBody (v : DefaultValidator) (parse : Bytes → Option WasmModule)
    (bytes : Bytes) : Except ValidationError Unit :=
  match parse bytes with
  | none => .error ⟨"failed to parse module", "parse", some "invalid module"⟩
  | some mod => do
    ValidateSecurityRules mod v.defaultRules
    (if v.customRules.length > 0 then ValidateSecurityRules mod v.customRules else .ok ())
    ValidateResourceLimits mod v.config.ResourceLimits

/-- `DefaultValidator.ValidateModule`: contract size first, then the body. -/
def ValidateModule (v : DefaultValidator) (parse : Bytes → Option WasmModule)
    (bytes : Bytes) : Except ValidationError Unit :=
  if contractSizeExceeded bytes v.config.ResourceLimits then
    .error ⟨"contract size " ++ toString bytes.length ++ " exceeds maximum allowed " ++
      toString v.config.ResourceLimits.MaxContractSize, "contract-size",
      some errResourceLimitExceeded⟩
  else ValidateModuleBody v parse bytes

/-! ## Helper lemmas -/

/-! ### Basic lemmas about the byte utilities -/

theorem leBytes_length (k n : Nat) : (leBytes k n).length = k := by
  induction k generalizing n with
  | zero => rfl
  | succ k ih => simp [leBytes, ih]

theorem u64LEbytes_length (n : Nat) : (u64LEbytes n).length = 8 := leBytes_length 8 n

theorem beUint64_append_singleton (l : Bytes) (d : Nat) (h : l.length < 8) :
    beUint64 (l ++ [d]) = beUint64 l * 256 + d := by
  unfold beUint64
  rw [List.take_of_length_le (by simp only [List.length_append, List.length_singleton]; omega),
    List.take_of_length_le (le_of_lt h), List.foldl_append]
  rfl

theorem beUint64_reverse_leBytes (k n : Nat) (hk : k ≤ 8) :
    beUint64 (leBytes k n).reverse = n % 256 ^ k := by
  induction k generalizing n with
  | zero => simp [leBytes, beUint64, Nat.mod_one]
  | succ k ih =>
    have hlen : (leBytes k (n / 256)).reverse.length = k := by
      simp [leBytes_length]
    calc beUint64 (leBytes (k + 1) n).reverse
        = beUint64 ((leBytes k (n / 256)).reverse ++ [n % 256]) := by
          simp [leBytes]
      _ = beUint64 (leBytes k (n / 256)).reverse * 256 + n % 256 := by
          rw [beUint64_append_singleton _ _ (by omega)]
      _ = (n / 256 % 256 ^ k) * 256 + n % 256 := by rw [ih _ (by omega)]
      _ = n % 256 ^ (k + 1) := by
          rw [pow_succ, mul_comm (256 ^ k) 256, Nat.mod_mul]; ring

/-- Reading back a stored big-endian balance recovers the value modulo `2^64`. -/
theorem beUint64_u64BEbytes (n : Nat) : beUint64 (u64BEbytes n) = n % 18446744073709551616 := by
  have h := beUint64_reverse_leBytes 8 n (by omega)
  simpa [u64BEbytes] using h

theorem mapGet_mapSet_self (m : List (Bytes × Bytes)) (k v : Bytes) :
    mapGet (mapSet m k v) k = some v := by
  simp [mapGet, mapSet]

theorem mapGet_mapSet_ne (m : List (Bytes × Bytes)) (k v key : Bytes) (h : key ≠ k) :
    mapGet (mapSet m k v) key = mapGet m key := by
  simp [mapGet, mapSet, h]

theorem balanceKey_inj {a b : Bytes} (h : balanceKey a = balanceKey b) : a = b := by
  simpa [balanceKey] using h

theorem simGetBalance_setRaw (s : SimulatorState) (b a v : Bytes) :
    SimGetBalance (SimSetRaw s (balanceKey b) v) a
      = if a = b then beUint64 v else SimGetBalance s a := by
  unfold SimGetBalance SimSetRaw
  by_cases h : a = b
  · subst h
    simp [mapGet_mapSet_self]
  · rw [mapGet_mapSet_ne _ _ _ _ (fun hh => h (balanceKey_inj hh))]
    simp [h]

theorem simTransferBalance_mint (s : SimulatorState) (dst : Bytes) (amount : Nat) :
    SimTransferBalance s emptyAddress dst amount
      = .ok (SimSetRaw s (balanceKey dst) (u64BEbytes (u64 (SimGetBalance s dst + amount)))) := by
  unfold SimTransferBalance
  simp
  rfl

theorem simTransferBalance_insufficient (s : SimulatorState) (src dst : Bytes) (amount : Nat)
    (h1 : src ≠ emptyAddress) (h2 : SimGetBalance s src < amount) :
    SimTransferBalance s src dst amount = .error "insufficient balance" := by
  unfold SimTransferBalance
  simp [h1, h2]

theorem simTransferBalance_deduct (s : SimulatorState) (src dst : Bytes) (amount : Nat)
    (h1 : src ≠ emptyAddress) (h2 : ¬ SimGetBalance s src < amount) :
    SimTransferBalance s src dst amount
      = .ok (SimSetRaw (SimSetRaw s (balanceKey src) (u64BEbytes (SimGetBalance s src - amount)))
          (balanceKey dst)
          (u64BEbytes (u64 (SimGetBalance
            (SimSetRaw s (balanceKey src) (u64BEbytes (SimGetBalance s src - amount))) dst
            + amount)))) := by
  unfold SimTransferBalance
  simp [h1, h2]
  rfl

/-! ## Claim theorems -/

/-- Claim C3: `ConsumeFuel(n)` returns the out-of-fuel error exactly when the
store's remaining fuel is below `n`, leaving the counter untouched in that
case, and otherwise deducts exactly `n`. -/
theorem c3_consume_fuel_spec (remaining n : Nat) :
    ((ConsumeFuel remaining n).1 = some "out of fuel" ↔ remaining < n)
    ∧ (remaining < n → (ConsumeFuel remaining n).2 = remaining)
    ∧ (n ≤ remaining →
        (ConsumeFuel remaining n).1 = none ∧ (ConsumeFuel remaining n).2 + n = remaining) := by
  unfold ConsumeFuel
  by_cases h : remaining < n <;> simp [h]
  omega

/-- Witness for C3 at fuel 2 against cost 3 (failure) and fuel 10 against
cost 3 (success). -/
theorem c3_consume_fuel_spec_witness :
    ((ConsumeFuel 2 3).1 = some "out of fuel" ∧ (ConsumeFuel 2 3).2 = 2)
    ∧ ((ConsumeFuel 10 3).1 = none ∧ (ConsumeFuel 10 3).2 + 3 = 10) :=
  ⟨⟨(c3_consume_fuel_spec 2 3).1.mpr (by decide), (c3_consume_fuel_spec 2 3).2.1 (by decide)⟩,
    (c3_consume_fuel_spec 10 3).2.2 (by decide)⟩

/-- Claim C9 (code bug): `SetAccountContract` followed by
`GetAccountContract` on the same account does not return the stored id —
`GetAccountContract` copies the 32 stored bytes into a nil slice
(`var contractID runtime.ContractID; copy(contractID[:], value)`), which
copies nothing, so the empty id is returned instead. -/
theorem c9_account_contract_roundtrip_bug :
    SimSetAccountContract ⟨[]⟩ (1 :: List.replicate 32 0) (List.range 32)
      = .ok ⟨[(1 :: List.replicate 32 0, List.range 32)]⟩
    ∧ SimGetAccountContract ⟨[(1 :: List.replicate 32 0, List.range 32)]⟩
        (1 :: List.replicate 32 0) = .ok []
    ∧ ([] : Bytes) ≠ List.range 32 := by
  refine ⟨by rfl, by rfl, by decide⟩

/-- Claim C10: `TransferBalance` mints when the source is the empty address
(credits the destination unconditionally, touching no other balance, and
never fails), fails with "insufficient balance" when a non-empty source
holds less than the amount, and otherwise debits the source and credits the
destination with `uint64` arithmetic, leaving all other balances unchanged. -/
theorem c10_transfer_balance_spec (s : SimulatorState) (src dst : Bytes) (amount : Nat) :
    (src = emptyAddress → ∃ s2, SimTransferBalance s src dst amount = .ok s2
      ∧ SimGetBalance s2 dst = (SimGetBalance s dst + amount) % 18446744073709551616
      ∧ ∀ a, a ≠ dst → SimGetBalance s2 a = SimGetBalance s a)
    ∧ (src ≠ emptyAddress → SimGetBalance s src < amount →
        SimTransferBalance s src dst amount = .error "insufficient balance")
    ∧ (src ≠ emptyAddress → amount ≤ SimGetBalance s src → ∃ s2,
        SimTransferBalance s src dst amount = .ok s2
        ∧ (src ≠ dst →
            SimGetBalance s2 src
              = (SimGetBalance s src - amount) % 18446744073709551616
            ∧ SimGetBalance s2 dst
              = (SimGetBalance s dst + amount) % 18446744073709551616)
        ∧ ∀ a, a ≠ src → a ≠ dst → SimGetBalance s2 a = SimGetBalance s a) := by
  refine ⟨?_, ?_, ?_⟩
  · intro hsrc
    subst hsrc
    refine ⟨_, simTransferBalance_mint s dst amount, ?_, ?_⟩
    · rw [simGetBalance_setRaw]
      simp [beUint64_u64BEbytes, u64]
    · intro a ha
      rw [simGetBalance_setRaw]
      simp [ha]
  · intro h1 h2
    exact simTransferBalance_insufficient s src dst amount h1 h2
  · intro h1 h2
    refine ⟨_, simTransferBalance_deduct s src dst amount h1 (by omega), ?_, ?_⟩
    · intro hne
      have hds : dst ≠ src := fun h => hne h.symm
      constructor
      · simp [simGetBalance_setRaw, hne, beUint64_u64BEbytes]
      · simp [simGetBalance_setRaw, hds, beUint64_u64BEbytes]
        unfold u64
        omega
    · intro a ha hd
      simp only [simGetBalance_setRaw]
      rw [if_neg hd, if_neg ha]

/-- Witness for C10: an insufficient transfer, a mint from the empty
address, and a funded transfer between two distinct accounts. -/
theorem c10_transfer_balance_spec_witness :
    SimTransferBalance ⟨[]⟩ (2 :: List.replicate 32 0) emptyAddress 5
      = .error "insufficient balance"
    ∧ (∃ s2, SimTransferBalance ⟨[]⟩ emptyAddress (2 :: List.replicate 32 0) 1000 = .ok s2
        ∧ SimGetBalance s2 (2 :: List.replicate 32 0)
            = (SimGetBalance (⟨[]⟩ : SimulatorState) (2 :: List.replicate 32 0) + 1000)
                % 18446744073709551616
        ∧ ∀ a, a ≠ 2 :: List.replicate 32 0 →
            SimGetBalance s2 a = SimGetBalance (⟨[]⟩ : SimulatorState) a)
    ∧ (∃ s2,
        SimTransferBalance ⟨[(balanceKey (2 :: List.replicate 32 0), u64BEbytes 100)]⟩
            (2 :: List.replicate 32 0) (3 :: List.replicate 32 0) 40 = .ok s2
        ∧ (2 :: List.replicate 32 0 ≠ 3 :: List.replicate 32 0 →
            SimGetBalance s2 (2 :: List.replicate 32 0)
              = (SimGetBalance (⟨[(balanceKey (2 :: List.replicate 32 0), u64BEbytes 100)]⟩ :
                  SimulatorState) (2 :: List.replicate 32 0) - 40) % 18446744073709551616
            ∧ SimGetBalance s2 (3 :: List.replicate 32 0)
              = (SimGetBalance (⟨[(balanceKey (2 :: List.replicate 32 0), u64BEbytes 100)]⟩ :
                  SimulatorState) (3 :: List.replicate 32 0) + 40) % 18446744073709551616)
        ∧ ∀ a, a ≠ 2 :: List.replicate 32 0 → a ≠ 3 :: List.replicate 32 0 →
            SimGetBalance s2 a
              = SimGetBalance (⟨[(balanceKey (2 :: List.replicate 32 0), u64BEbytes 100)]⟩ :
                  SimulatorState) a) :=
  ⟨(c10_transfer_balance_spec ⟨[]⟩ (2 :: List.replicate 32 0) emptyAddress 5).2.1
      (by decide) (by decide),
    (c10_transfer_balance_spec ⟨[]⟩ emptyAddress (2 :: List.replicate 32 0) 1000).1 rfl,
    (c10_transfer_balance_spec ⟨[(balanceKey (2 :: List.replicate 32 0), u64BEbytes 100)]⟩
      (2 :: List.replicate 32 0) (3 :: List.replicate 32 0) 40).2.2 (by decide) (by decide)⟩

/-- The `make`/`copy` sequence of `prependAccountToKey` produces the account,
a `'/'` (byte 47), then the key. -/
theorem prependAccountToKey_eq (account key : Bytes) :
    prependAccountToKey account key = account ++ 47 :: key := by
  have s1 : goCopy (List.replicate (account.length + key.length + 1) 0) account
      = account ++ List.replicate (key.length + 1) 0 := by
    unfold goCopy
    rw [List.length_replicate, List.take_of_length_le (by omega), List.drop_replicate]
    have harith : account.length + key.length + 1 - account.length = key.length + 1 := by omega
    rw [harith]
  have s2 : goCopyAt (account ++ List.replicate (key.length + 1) 0) account.length [47]
      = account ++ 47 :: List.replicate key.length 0 := by
    unfold goCopyAt goCopy
    rw [List.take_left, List.drop_left, List.length_replicate,
      List.take_of_length_le (l := [47]) (by simp), List.drop_replicate]
    simp
  have s3 : goCopyAt (account ++ 47 :: List.replicate key.length 0) (account.length + 1) key
      = account ++ 47 :: key := by
    unfold goCopyAt goCopy
    have hsplit : account ++ 47 :: List.replicate key.length 0
        = (account ++ [47]) ++ List.replicate key.length 0 := by simp
    have hlen : account.length + 1 = (account ++ [47]).length := by simp
    rw [hsplit, hlen, List.take_left, List.drop_left, List.length_replicate,
      List.take_length, List.drop_replicate]
    simp
  unfold prependAccountToKey
  rw [s1, s2, s3]

/-- Claim C2 counterexample: a contract-state insert through the simulator's
`ContractState` at address `replicate 33 5` with key `[107]` stores the value
under address ++ key, with no value under address ++ 47 (the '/' byte) ++
key, contradicting the claim that every state operation is forwarded under
the address-slash-key form. -/
theorem c2_no_separator_cex :
    ContractStateInsert ⟨[]⟩ (List.replicate 33 5) [107] [1]
      = .ok ⟨[(List.replicate 33 5 ++ [107], [1])]⟩
    ∧ mapGet [(List.replicate 33 5 ++ [107], [1])] (List.replicate 33 5 ++ 47 :: [107]) = none
    ∧ List.replicate 33 5 ++ [107] ≠ List.replicate 33 5 ++ 47 :: [107] := by
  refine ⟨by rfl, by decide, by decide⟩

/-- Claim C2 (amended): state operations issued through the runtime's
`prefixedState` wrapper are forwarded under the 33-byte address, a `'/'`
separator byte, then the guest key (`prependAccountToKey`); the simulator's
`ContractState` forwards them under the bare address followed by the key,
with no separator. Both confine every operation to keys that begin with the
executing contract's address. -/
theorem c2_state_key_prefixing_amended (inner s : SimulatorState) (address key value : Bytes)
    (hk : key ≠ []) :
    prependAccountToKey address key = address ++ 47 :: key
    ∧ PrefixedGetValue inner address key = SimGetValue inner (address ++ 47 :: key)
    ∧ PrefixedInsert inner address key value = SimInsert inner (address ++ 47 :: key) value
    ∧ PrefixedRemove inner address key = SimRemove inner (address ++ 47 :: key)
    ∧ ContractStateGetValue s address key = SimGetValue s (address ++ key)
    ∧ ContractStateInsert s address key value = SimInsert s (address ++ key) value
    ∧ ContractStateRemove s address key = SimRemove s (address ++ key)
    ∧ (address ++ 47 :: key).take address.length = address
    ∧ (address ++ key).take address.length = address := by
  have hk0 : ¬ key.length = 0 := by
    simpa [List.length_eq_zero] using hk
  refine ⟨prependAccountToKey_eq address key, ?_, ?_, ?_, ?_, ?_, ?_, ?_, ?_⟩
  · rw [PrefixedGetValue, prependAccountToKey_eq]
  · rw [PrefixedInsert, prependAccountToKey_eq]
  · rw [PrefixedRemove, prependAccountToKey_eq]
  · rw [ContractStateGetValue, if_neg hk0]
  · rw [ContractStateInsert, if_neg hk0]
  · rw [ContractStateRemove, if_neg hk0]
  · exact List.take_left address (47 :: key)
  · exact List.take_left address key

/-- Witness for C2's amended statement at a concrete address, key and
value. -/
theorem c2_state_key_prefixing_amended_witness :
    prependAccountToKey (List.replicate 33 5) [107] = List.replicate 33 5 ++ 47 :: [107]
    ∧ PrefixedInsert ⟨[]⟩ (List.replicate 33 5) [107] [1]
        = SimInsert ⟨[]⟩ (List.replicate 33 5 ++ 47 :: [107]) [1]
    ∧ ContractStateInsert ⟨[]⟩ (List.replicate 33 5) [107] [1]
        = SimInsert ⟨[]⟩ (List.replicate 33 5 ++ [107]) [1] :=
  have h := c2_state_key_prefixing_amended ⟨[]⟩ ⟨[]⟩ (List.replicate 33 5) [107] [1]
    (by decide)
  ⟨h.1, h.2.2.1, h.2.2.2.2.2.1⟩

/-- Events of the post-transfer part of `call` extend the incoming trace. -/
theorem contractCallBody_events_prefix (env : HostEnv) (st : ExecState) (ci : CallInfo) :
    ∃ added, (contractCallBody env st ci).2.events = st.events ++ added := by
  rcases halloc : env.alloc
      ((customSerialize ⟨ci.contract, ci.actor, ci.height, ci.timestamp, ci.actionID⟩).length
        + ci.params.length) with e | off
  · exact ⟨[], by simp [contractCallBody, writeToMemory, halloc]⟩
  · by_cases hfn : env.hasFunction ci.functionName
    · rcases hrun : env.guestRun with e2 | u
      · refine ⟨[HostEvent.memWrite off
            (customSerialize ⟨ci.contract, ci.actor, ci.height, ci.timestamp, ci.actionID⟩
              ++ ci.params), HostEvent.guestCall ci.functionName off], ?_⟩
        simp [contractCallBody, writeToMemory, halloc, hfn, hrun]
      · refine ⟨[HostEvent.memWrite off
            (customSerialize ⟨ci.contract, ci.actor, ci.height, ci.timestamp, ci.actionID⟩
              ++ ci.params), HostEvent.guestCall ci.functionName off], ?_⟩
        simp [contractCallBody, writeToMemory, halloc, hfn, hrun]
    · refine ⟨[HostEvent.memWrite off
          (customSerialize ⟨ci.contract, ci.actor, ci.height, ci.timestamp, ci.actionID⟩
            ++ ci.params)], ?_⟩
      simp [contractCallBody, writeToMemory, halloc, hfn]

/-- When `alloc` succeeds, the post-transfer part of `call` logs the write of
the serialized context-plus-params buffer before anything else. -/
theorem contractCallBody_memWrite (env : HostEnv) (st : ExecState) (ci : CallInfo) (off : Nat)
    (halloc : env.alloc
      ((customSerialize ⟨ci.contract, ci.actor, ci.height, ci.timestamp, ci.actionID⟩).length
        + ci.params.length) = .ok off) :
    ∃ post, (contractCallBody env st ci).2.events
      = st.events ++ HostEvent.memWrite off
          (customSerialize ⟨ci.contract, ci.actor, ci.height, ci.timestamp, ci.actionID⟩
            ++ ci.params) :: post := by
  by_cases hfn : env.hasFunction ci.functionName
  · rcases hrun : env.guestRun with e2 | u
    · exact ⟨[HostEvent.guestCall ci.functionName off],
        by simp [contractCallBody, writeToMemory, halloc, hfn, hrun]⟩
    · exact ⟨[HostEvent.guestCall ci.functionName off],
        by simp [contractCallBody, writeToMemory, halloc, hfn, hrun]⟩
  · exact ⟨[], by simp [contractCallBody, writeToMemory, halloc, hfn]⟩

/-- Claim C1: for `Value > 0`, the balance transfer from the actor to the
contract is attempted before anything else the call does; if the transfer
fails, the call returns that error with no memory write and no guest
invocation (the only logged event is the transfer attempt, and the only
state change is the fuel top-up that precedes the transfer in the source). -/
theorem c1_value_transfer_guard (env : HostEnv) (st : ExecState) (ci : CallInfo) :
    (0 < ci.value → ∃ tail, (contractCall env st ci).2.events
        = st.events ++ HostEvent.transferAttempt ci.actor ci.contract ci.value :: tail)
    ∧ (∀ e, 0 < ci.value → env.transfer ci.actor ci.contract ci.value = .error e →
        contractCall env st ci = (.error e,
          ⟨u64 (st.fuel + ci.fuel),
            st.events ++ [HostEvent.transferAttempt ci.actor ci.contract ci.value]⟩)) := by
  constructor
  · intro hv
    unfold contractCall
    rw [if_pos hv]
    rcases htr : env.transfer ci.actor ci.contract ci.value with e | u
    · exact ⟨[], by simp⟩
    · obtain ⟨added, hadded⟩ := contractCallBody_events_prefix env
        ⟨u64 (st.fuel + ci.fuel),
          st.events ++ [HostEvent.transferAttempt ci.actor ci.contract ci.value]⟩ ci
      refine ⟨added, ?_⟩
      simpa using hadded
  · intro e hv htr
    unfold contractCall
    rw [if_pos hv, htr]

/-- Witness for C1: a failing transfer with attached value 7 aborts the call
with only the transfer attempt on the trace. -/
theorem c1_value_transfer_guard_witness :
    contractCall
        ⟨fun _ _ _ => .error "insufficient balance", fun _ => .ok 64, fun _ => true, .ok (), []⟩
        ⟨50, []⟩
        ⟨List.replicate 33 3, List.replicate 33 4, "f", [9], 100, 1, 2, List.replicate 32 5, 7⟩
      = (.error "insufficient balance",
          ⟨u64 (50 + 100),
            [] ++ [HostEvent.transferAttempt (List.replicate 33 3) (List.replicate 33 4) 7]⟩) :=
  (c1_value_transfer_guard
      ⟨fun _ _ _ => .error "insufficient balance", fun _ => .ok 64, fun _ => true, .ok (), []⟩
      ⟨50, []⟩
      ⟨List.replicate 33 3, List.replicate 33 4, "f", [9], 100, 1, 2, List.replicate 32 5, 7⟩).2
    "insufficient balance" (by decide) rfl

/-- Claim C4 counterexample: the serialized `ContractContext` prefix for
33-byte addresses and a 32-byte action id has 114 bytes (33+33+8+8+32), not
106 as claimed. -/
theorem c4_context_prefix_not_106_cex :
    (customSerialize
        ⟨List.replicate 33 0, List.replicate 33 1, 0, 0, List.replicate 32 2⟩).length = 114
    ∧ (114 : Nat) ≠ 106 := by
  refine ⟨by decide, by decide⟩

/-- Claim C4 (amended): the buffer whose offset is handed to the guest entry
point is exactly the 114-byte `ContractContext` prefix — 33-byte contract
address, 33-byte actor address, height and timestamp as little-endian
`u64`, and the raw 32-byte action id — followed by the caller-supplied
params bytes. -/
theorem c4_param_buffer_layout_amended (env : HostEnv) (st : ExecState) (ci : CallInfo)
    (off : Nat)
    (hc : ci.contract.length = 33) (ha : ci.actor.length = 33) (hid : ci.actionID.length = 32)
    (hreach : ci.value = 0 ∨ env.transfer ci.actor ci.contract ci.value = .ok ())
    (halloc : env.alloc (114 + ci.params.length) = .ok off) :
    ∃ pre post,
      (contractCall env st ci).2.events
        = st.events ++ pre ++ HostEvent.memWrite off
            (ci.contract ++ ci.actor ++ u64LEbytes ci.height ++ u64LEbytes ci.timestamp
              ++ ci.actionID ++ ci.params) :: post
      ∧ (customSerialize ⟨ci.contract, ci.actor, ci.height, ci.timestamp, ci.actionID⟩).length
          = 114
      ∧ customSerialize ⟨ci.contract, ci.actor, ci.height, ci.timestamp, ci.actionID⟩
          ++ ci.params
          = ci.contract ++ ci.actor ++ u64LEbytes ci.height ++ u64LEbytes ci.timestamp
              ++ ci.actionID ++ ci.params := by
  have hbuf : customSerialize ⟨ci.contract, ci.actor, ci.height, ci.timestamp, ci.actionID⟩
      ++ ci.params
      = ci.contract ++ ci.actor ++ u64LEbytes ci.height ++ u64LEbytes ci.timestamp
          ++ ci.actionID ++ ci.params := rfl
  have hlen : (customSerialize
      ⟨ci.contract, ci.actor, ci.height, ci.timestamp, ci.actionID⟩).length = 114 := by
    simp [customSerialize, borshAddressBytes, borshU64Bytes, u64LEbytes_length, hc, ha, hid]
  have halloc2 : env.alloc
      ((customSerialize ⟨ci.contract, ci.actor, ci.height, ci.timestamp, ci.actionID⟩).length
        + ci.params.length) = .ok off := by
    rw [hlen]
    exact halloc
  by_cases hv : ci.value = 0
  · obtain ⟨post, hpost⟩ := contractCallBody_memWrite env ⟨u64 (st.fuel + ci.fuel), st.events⟩
      ci off halloc2
    refine ⟨[], post, ?_, hlen, hbuf⟩
    have hcall : contractCall env st ci
        = contractCallBody env ⟨u64 (st.fuel + ci.fuel), st.events⟩ ci := by
      unfold contractCall
      rw [if_neg (by omega)]
    rw [hcall]
    simpa [hbuf] using hpost
  · rcases hreach with hz | htr
    · exact absurd hz hv
    · obtain ⟨post, hpost⟩ := contractCallBody_memWrite env
        ⟨u64 (st.fuel + ci.fuel),
          st.events ++ [HostEvent.transferAttempt ci.actor ci.contract ci.value]⟩ ci off halloc2
      refine ⟨[HostEvent.transferAttempt ci.actor ci.contract ci.value], post, ?_, hlen, hbuf⟩
      have hcall : contractCall env st ci
          = contractCallBody env
              ⟨u64 (st.fuel + ci.fuel),
                st.events ++ [HostEvent.transferAttempt ci.actor ci.contract ci.value]⟩ ci := by
        unfold contractCall
        rw [if_pos (by omega), htr]
      rw [hcall]
      simpa [hbuf] using hpost

/-- Witness for C4's amended statement: a concrete call with value 0 whose
parameter buffer is the 114-byte prefix followed by the params. -/
theorem c4_param_buffer_layout_amended_witness :
    ∃ pre post,
      (contractCall ⟨fun _ _ _ => .ok (), fun _ => .ok 64, fun _ => true, .ok (), [1]⟩
          ⟨50, []⟩
          ⟨List.replicate 33 4, List.replicate 33 3, "f", [9], 100, 1, 2,
            List.replicate 32 5, 0⟩).2.events
        = [] ++ pre ++ HostEvent.memWrite 64
            (List.replicate 33 3 ++ List.replicate 33 4 ++ u64LEbytes 1 ++ u64LEbytes 2
              ++ List.replicate 32 5 ++ [9]) :: post
      ∧ (customSerialize ⟨List.replicate 33 3, List.replicate 33 4, 1, 2,
          List.replicate 32 5⟩).length = 114
      ∧ customSerialize ⟨List.replicate 33 3, List.replicate 33 4, 1, 2, List.replicate 32 5⟩
          ++ [9]
          = List.replicate 33 3 ++ List.replicate 33 4 ++ u64LEbytes 1 ++ u64LEbytes 2
              ++ List.replicate 32 5 ++ [9] :=
  c4_param_buffer_layout_amended
    ⟨fun _ _ _ => .ok (), fun _ => .ok 64, fun _ => true, .ok (), [1]⟩ ⟨50, []⟩
    ⟨List.replicate 33 4, List.replicate 33 3, "f", [9], 100, 1, 2, List.replicate 32 5, 0⟩
    64 (by decide) (by decide) (by decide) (Or.inl rfl) rfl

/-- Any input of length `2^32` passes the size check of the validator
configured with `MaxContractSize = 2^32 - 1`, and an empty parsed module
passes everything else. -/
theorem c5_wrap_aux (bytes : Bytes) (hlen : bytes.length = 4294967296) :
    ValidateModule
        (NewDefaultValidator ⟨⟨4294967295, 1000, 100, 100, 100, 4, 16, 10000⟩, true, []⟩)
        (fun _ => some ⟨[], []⟩) bytes = .ok () := by
  have hsz : contractSizeExceeded bytes
      (NewDefaultValidator
        ⟨⟨4294967295, 1000, 100, 100, 100, 4, 16, 10000⟩, true,
          []⟩).config.ResourceLimits = false := by
    unfold contractSizeExceeded u32
    rw [hlen]
    decide
  unfold ValidateModule
  rw [hsz]
  rfl

/-- Claim C5 counterexample: because the size check converts the length with
Go's `uint32(len(bytes))`, a validator configured with
`MaxContractSize = 2^32 - 1` accepts an input of length `MaxContractSize + 1
= 2^32` — the truncated length wraps to 0 — although the claim says any
input one byte over the limit fails with rule "contract-size". -/
theorem c5_size_check_wrap_cex :
    (List.replicate 4294967296 (0 : Nat)).length
      = (NewDefaultValidator
          ⟨⟨4294967295, 1000, 100, 100, 100, 4, 16, 10000⟩, true,
            []⟩).config.ResourceLimits.MaxContractSize + 1
    ∧ ValidateModule
        (NewDefaultValidator ⟨⟨4294967295, 1000, 100, 100, 100, 4, 16, 10000⟩, true, []⟩)
        (fun _ => some ⟨[], []⟩) (List.replicate 4294967296 0) = .ok () :=
  ⟨(List.length_replicate 4294967296 0).trans rfl,
    c5_wrap_aux (List.replicate 4294967296 0) (List.length_replicate 4294967296 0)⟩

/-- Claim C5 (amended): with `MaxContractSize + 1 < 2^32` (every
configuration except the maximal `uint32` limit, where the length conversion
wraps), an input of exactly `MaxContractSize` bytes passes the size check
and continues with the rest of validation, and an input one byte longer is
rejected with rule "contract-size". -/
theorem c5_size_boundary_amended (v : DefaultValidator) (parse : Bytes → Option WasmModule)
    (bytes : Bytes) (hmax : v.config.ResourceLimits.MaxContractSize + 1 < 4294967296) :
    (bytes.length = v.config.ResourceLimits.MaxContractSize →
      ValidateModule v parse bytes = ValidateModuleBody v parse bytes)
    ∧ (bytes.length = v.config.ResourceLimits.MaxContractSize + 1 →
      ValidateModule v parse bytes
        = .error ⟨"contract size " ++ toString bytes.length ++ " exceeds maximum allowed "
            ++ toString v.config.ResourceLimits.MaxContractSize, "contract-size",
            some errResourceLimitExceeded⟩) := by
  constructor
  · intro hlen
    have hsz : contractSizeExceeded bytes v.config.ResourceLimits = false := by
      unfold contractSizeExceeded u32
      rw [hlen, Nat.mod_eq_of_lt (by omega)]
      simp
    unfold ValidateModule
    rw [hsz]
    rfl
  · intro hlen
    have hsz : contractSizeExceeded bytes v.config.ResourceLimits = true := by
      unfold contractSizeExceeded u32
      rw [hlen, Nat.mod_eq_of_lt hmax]
      simp
    unfold ValidateModule
    rw [hsz]
    rfl

/-- Witness for C5's amended statement with `MaxContractSize = 3`: three
bytes pass the size check, four bytes fail with rule "contract-size". -/
theorem c5_size_boundary_amended_witness :
    ValidateModule (NewDefaultValidator ⟨⟨3, 1000, 100, 100, 100, 4, 16, 10000⟩, true, []⟩)
        (fun _ => some ⟨[], []⟩) [0, 0, 0]
      = ValidateModuleBody
          (NewDefaultValidator ⟨⟨3, 1000, 100, 100, 100, 4, 16, 10000⟩, true, []⟩)
          (fun _ => some ⟨[], []⟩) [0, 0, 0]
    ∧ ValidateModule (NewDefaultValidator ⟨⟨3, 1000, 100, 100, 100, 4, 16, 10000⟩, true, []⟩)
        (fun _ => some ⟨[], []⟩) [0, 0, 0, 0]
      = .error ⟨"contract size " ++ toString (([0, 0, 0, 0] : Bytes).length)
          ++ " exceeds maximum allowed " ++ toString (3 : Nat), "contract-size",
          some errResourceLimitExceeded⟩ :=
  ⟨(c5_size_boundary_amended
      (NewDefaultValidator ⟨⟨3, 1000, 100, 100, 100, 4, 16, 10000⟩, true, []⟩)
      (fun _ => some ⟨[], []⟩) [0, 0, 0] (by decide)).1 (by decide),
    (c5_size_boundary_amended
      (NewDefaultValidator ⟨⟨3, 1000, 100, 100, 100, 4, 16, 10000⟩, true, []⟩)
      (fun _ => some ⟨[], []⟩) [0, 0, 0, 0] (by decide)).2 (by decide)⟩

/-- Claim C6: with the memory and table checks passing (and module sizes
below the `uint32` wrap, true of every parseable module), the resource-limit
validator rejects a module exactly when one of the four counts is exceeded:
function-typed exports plus function-typed imports over `MaxFunctions`,
exports over `MaxExports`, imports over `MaxImports`, or global-typed
entries over `MaxGlobals`. Non-function exports and imports do not count
toward `MaxFunctions`. -/
theorem c6_count_check_iff (mod : WasmModule) (limits : ResourceLimits)
    (hbound : mod.exports.length + mod.imports.length < 4294967296)
    (hmem : checkMemoryLimits mod.exports limits = .ok ())
    (htab : checkTableLimits mod.exports limits = .ok ()) :
    (ValidateResourceLimits mod limits ≠ .ok ()) ↔
      (mod.exports.countP (fun e => e.typ.isFuncT)
          + mod.imports.countP (fun i => i.typ.isFuncT) > limits.MaxFunctions
        ∨ mod.exports.length > limits.MaxExports
        ∨ mod.imports.length > limits.MaxImports
        ∨ mod.exports.countP (fun e => e.typ.isGlobalT)
            + mod.imports.countP (fun i => i.typ.isGlobalT) > limits.MaxGlobals) := by
  have hfe := List.countP_le_length (l := mod.exports) (p := fun e => e.typ.isFuncT)
  have hfi := List.countP_le_length (l := mod.imports) (p := fun i => i.typ.isFuncT)
  have hge := List.countP_le_length (l := mod.exports) (p := fun e => e.typ.isGlobalT)
  have hgi := List.countP_le_length (l := mod.imports) (p := fun i => i.typ.isGlobalT)
  have hfc : vFuncCount mod = mod.exports.countP (fun e => e.typ.isFuncT)
      + mod.imports.countP (fun i => i.typ.isFuncT) := by
    unfold vFuncCount u32
    exact Nat.mod_eq_of_lt (by omega)
  have hgcnt : vGlobalCount mod = mod.exports.countP (fun e => e.typ.isGlobalT)
      + mod.imports.countP (fun i => i.typ.isGlobalT) := by
    unfold vGlobalCount u32
    exact Nat.mod_eq_of_lt (by omega)
  have hue : u32 mod.exports.length = mod.exports.length := Nat.mod_eq_of_lt (by omega)
  have hui : u32 mod.imports.length = mod.imports.length := Nat.mod_eq_of_lt (by omega)
  unfold ValidateResourceLimits
  rw [hfc, hgcnt, hue, hui]
  split_ifs with h1 h2 h3 h4
  · simp [h1]
  · simp [h2]
  · simp [h3]
  · simp [h4]
  · simp [hmem, htab, h1, h2, h3, h4]
    rfl

/-- Witness for C6: one function export plus two global exports against
`MaxGlobals = 1` is rejected; a function is not counted as a global and the
two non-function globals do not count toward `MaxFunctions`. -/
theorem c6_count_check_iff_witness :
    ValidateResourceLimits
        ⟨[⟨"f1", .func [] []⟩, ⟨"g1", .globalVar⟩, ⟨"g2", .globalVar⟩], []⟩
        ⟨1048576, 10, 10, 10, 1, 4, 16, 10000⟩ ≠ .ok () :=
  (c6_count_check_iff
      ⟨[⟨"f1", .func [] []⟩, ⟨"g1", .globalVar⟩, ⟨"g2", .globalVar⟩], []⟩
      ⟨1048576, 10, 10, 10, 1, 4, 16, 10000⟩
      (by decide) (by rfl) (by rfl)).mpr (by decide)

/-- Every error produced by the memory-limit loop carries rule
"resource-limits". -/
theorem checkMemoryLimits_error_rule (exports : List ExportDecl) (limits : ResourceLimits)
    (e : ValidationError) (h : checkMemoryLimits exports limits = .error e) :
    e.rule = "resource-limits" := by
  induction exports with
  | nil => simp [checkMemoryLimits] at h
  | cons hd tl ih =>
    rcases hd with ⟨name, typ⟩
    cases typ with
    | mem minP maxP =>
      simp only [checkMemoryLimits] at h
      by_cases h1 : u32 minP > limits.MaxMemoryPages
      · rw [if_pos h1] at h
        injection h with h2
        rw [← h2]
      · rw [if_neg h1] at h
        cases maxP with
        | none => exact ih h
        | some m =>
          dsimp only at h
          by_cases h2 : u32 m > limits.MaxMemoryPages
          · rw [if_pos h2] at h
            injection h with h3
            rw [← h3]
          · rw [if_neg h2] at h
            exact ih h
    | func ps rs => exact ih (by simpa only [checkMemoryLimits] using h)
    | globalVar => exact ih (by simpa only [checkMemoryLimits] using h)
    | table mn mx => exact ih (by simpa only [checkMemoryLimits] using h)

/-- A module with an exported memory violating the page limits does not pass
the memory-limit loop. -/
theorem checkMemoryLimits_violation (exports : List ExportDecl) (limits : ResourceLimits)
    (h : ∃ name minP maxP, (⟨name, .mem minP maxP⟩ : ExportDecl) ∈ exports
      ∧ (u32 minP > limits.MaxMemoryPages
        ∨ ∃ m, maxP = some m ∧ u32 m > limits.MaxMemoryPages)) :
    ∃ e, checkMemoryLimits exports limits = .error e := by
  induction exports with
  | nil =>
    obtain ⟨name, minP, maxP, hin, _⟩ := h
    exact absurd hin (List.not_mem_nil _)
  | cons hd tl ih =>
    obtain ⟨name, minP, maxP, hin, hviol⟩ := h
    rcases List.mem_cons.mp hin with heq | htl
    · subst heq
      simp only [checkMemoryLimits]
      by_cases h1 : u32 minP > limits.MaxMemoryPages
      · exact ⟨_, by rw [if_pos h1]⟩
      · rw [if_neg h1]
        rcases hviol with hmin | ⟨m, hm, hgt⟩
        · exact absurd hmin h1
        · subst hm
          dsimp only
          exact ⟨_, by rw [if_pos hgt]⟩
    · rcases hd with ⟨name2, typ2⟩
      cases typ2 with
      | mem minP2 maxP2 =>
        simp only [checkMemoryLimits]
        by_cases h1 : u32 minP2 > limits.MaxMemoryPages
        · exact ⟨_, by rw [if_pos h1]⟩
        · rw [if_neg h1]
          cases maxP2 with
          | none => exact ih ⟨name, minP, maxP, htl, hviol⟩
          | some m2 =>
            dsimp only
            by_cases h2 : u32 m2 > limits.MaxMemoryPages
            · exact ⟨_, by rw [if_pos h2]⟩
            · rw [if_neg h2]
              exact ih ⟨name, minP, maxP, htl, hviol⟩
      | func ps rs => exact ih ⟨name, minP, maxP, htl, hviol⟩
      | globalVar => exact ih ⟨name, minP, maxP, htl, hviol⟩
      | table mn mx => exact ih ⟨name, minP, maxP, htl, hviol⟩

/-- With an empty allow list, a deny list naming `memory.grow` makes the
memory-operations rule reject any module exporting a maximum-less memory. -/
theorem validateMemoryOperations_unbounded (exports : List ExportDecl) (rule : SecurityRule)
    (hallow : rule.AllowList = []) (hdeny : "memory.grow" ∈ rule.DenyList)
    (h : ∃ name minP, (⟨name, .mem minP none⟩ : ExportDecl) ∈ exports) :
    validateMemoryOperations exports rule
      = .error ⟨"unbounded memory growth not allowed", rule.Name, none⟩ := by
  induction exports with
  | nil =>
    obtain ⟨name, minP, hin⟩ := h
    exact absurd hin (List.not_mem_nil _)
  | cons hd tl ih =>
    obtain ⟨name, minP, hin⟩ := h
    rcases List.mem_cons.mp hin with heq | htl
    · subst heq
      simp only [validateMemoryOperations]
      rw [if_pos ⟨hdeny, trivial⟩]
    · rcases hd with ⟨name2, typ2⟩
      cases typ2 with
      | mem minP2 maxP2 =>
        simp only [validateMemoryOperations]
        cases maxP2 with
        | none => rw [if_pos ⟨hdeny, rfl⟩]
        | some m2 =>
          rw [if_neg (by simp), if_neg (by simp [hallow])]
          exact ih ⟨name, minP, htl⟩
      | func ps rs =>
        simp only [validateMemoryOperations]
        exact ih ⟨name, minP, htl⟩
      | globalVar =>
        simp only [validateMemoryOperations]
        exact ih ⟨name, minP, htl⟩
      | table mn mx =>
        simp only [validateMemoryOperations]
        exact ih ⟨name, minP, htl⟩

/-- A deny list containing no value-kind name never rejects a kind. -/
theorem validateType_none (k : ValKind) (rule : SecurityRule)
    (h : ∀ kind : ValKind, valKindName kind ∉ rule.DenyList) :
    validateType k rule = none := by
  unfold validateType
  by_cases h0 : rule.DenyList.length = 0
  · simp [h0]
  · simp [h0, h k]

/-- `firstDeniedKind` finds nothing under such a deny list. -/
theorem firstDeniedKind_none (kinds : List ValKind) (rule : SecurityRule)
    (h : ∀ kind : ValKind, valKindName kind ∉ rule.DenyList) :
    firstDeniedKind kinds rule = none := by
  induction kinds with
  | nil => rfl
  | cons k ks ih =>
    simp only [firstDeniedKind, validateType_none k rule h]
    exact ih

/-- The export half of `validateInstructions` passes under such a rule. -/
theorem validateInstructionsExports_ok (exports : List ExportDecl) (rule : SecurityRule)
    (h : ∀ kind : ValKind, valKindName kind ∉ rule.DenyList) :
    validateInstructionsExports exports rule = .ok () := by
  induction exports with
  | nil => rfl
  | cons hd tl ih =>
    rcases hd with ⟨name, typ⟩
    cases typ with
    | func ps rs =>
      simp only [validateInstructionsExports, firstDeniedKind_none ps rule h,
        firstDeniedKind_none rs rule h]
      exact ih
    | globalVar => exact ih
    | mem mn mx => exact ih
    | table mn mx => exact ih

/-- The import half of `validateInstructions` passes under such a rule. -/
theorem validateInstructionsImports_ok (imports : List ImportDecl) (rule : SecurityRule)
    (h : ∀ kind : ValKind, valKindName kind ∉ rule.DenyList) :
    validateInstructionsImports imports rule = .ok () := by
  induction imports with
  | nil => rfl
  | cons hd tl ih =>
    rcases hd with ⟨mname, iname, typ⟩
    cases typ with
    | func ps rs =>
      simp only [validateInstructionsImports, firstDeniedKind_none ps rule h,
        firstDeniedKind_none rs rule h]
      exact ih
    | globalVar => exact ih
    | mem mn mx => exact ih
    | table mn mx => exact ih

/-- `validateInstructions` passes whenever the deny list names no value
kind (true of the default instruction rule, which denies only table and
segment instructions). -/
theorem validateInstructions_ok (mod : WasmModule) (rule : SecurityRule)
    (h : ∀ kind : ValKind, valKindName kind ∉ rule.DenyList) :
    validateInstructions mod rule = .ok () := by
  unfold validateInstructions
  rw [validateInstructionsExports_ok mod.exports rule h,
    validateInstructionsImports_ok mod.imports rule h]
  rfl

/-- Claim C7: the resource-limit validator rejects (with rule
"resource-limits") any module exporting a memory whose minimum or declared
maximum page count exceeds `MaxMemoryPages`; at the default limits a memory
of exactly 16 pages passes and one of 17 fails; and a policy rule denying
`memory.grow` (in particular the built-in "default-memory" rule) rejects any
module exporting a memory with no declared maximum. -/
theorem c7_memory_limits :
    (∀ (mod : WasmModule) (limits : ResourceLimits) (name : String) (minP : Nat)
        (maxP : Option Nat),
      (⟨name, .mem minP maxP⟩ : ExportDecl) ∈ mod.exports →
      (u32 minP > limits.MaxMemoryPages
        ∨ ∃ m, maxP = some m ∧ u32 m > limits.MaxMemoryPages) →
      ∃ e, ValidateResourceLimits mod limits = .error e ∧ e.rule = "resource-limits")
    ∧ ValidateResourceLimits ⟨[⟨"memory", .mem 16 (some 16)⟩], []⟩ DefaultResourceLimits
        = .ok ()
    ∧ (∃ e, ValidateResourceLimits ⟨[⟨"memory", .mem 17 (some 17)⟩], []⟩ DefaultResourceLimits
        = .error e ∧ e.rule = "resource-limits")
    ∧ (∀ (exports : List ExportDecl) (rule : SecurityRule) (name : String) (minP : Nat),
      rule.AllowList = [] → "memory.grow" ∈ rule.DenyList →
      (⟨name, .mem minP none⟩ : ExportDecl) ∈ exports →
      validateMemoryOperations exports rule
        = .error ⟨"unbounded memory growth not allowed", rule.Name, none⟩)
    ∧ (∀ (mod : WasmModule) (name : String) (minP : Nat),
      (⟨name, .mem minP none⟩ : ExportDecl) ∈ mod.exports →
      ValidateSecurityRules mod defaultSecurityRules
        = .error ⟨"unbounded memory growth not allowed", "default-memory", none⟩) := by
  refine ⟨?_, by rfl, ⟨_, rfl, rfl⟩, ?_, ?_⟩
  · intro mod limits name minP maxP hin hviol
    obtain ⟨e, he⟩ := checkMemoryLimits_violation mod.exports limits
      ⟨name, minP, maxP, hin, hviol⟩
    have hr := checkMemoryLimits_error_rule mod.exports limits e he
    unfold ValidateResourceLimits
    split_ifs with h1 h2 h3 h4
    · exact ⟨_, rfl, rfl⟩
    · exact ⟨_, rfl, rfl⟩
    · exact ⟨_, rfl, rfl⟩
    · exact ⟨_, rfl, rfl⟩
    · refine ⟨e, ?_, hr⟩
      show (do
        checkMemoryLimits mod.exports limits
        checkTableLimits mod.exports limits) = Except.error e
      rw [he]
      rfl
  · intro exports rule name minP hallow hdeny hin
    exact validateMemoryOperations_unbounded exports rule hallow hdeny ⟨name, minP, hin⟩
  · intro mod name minP hin
    have h1 : validateInstructions mod
        ⟨.instruction, "default-instructions", [],
          ["table.get", "table.set", "table.size", "table.grow", "table.fill",
            "table.init", "elem.drop", "data.drop", "table.copy"], none⟩ = .ok () :=
      validateInstructions_ok _ _ (by intro k; cases k <;> decide)
    have h2 : validateMemoryOperations mod.exports
        ⟨.memory, "default-memory", [], ["memory.grow"], none⟩
        = .error ⟨"unbounded memory growth not allowed", "default-memory", none⟩ :=
      validateMemoryOperations_unbounded mod.exports _ rfl (by decide) ⟨name, minP, hin⟩
    simp only [defaultSecurityRules, ValidateSecurityRules, applySecurityRule]
    rw [h1, h2]
    rfl

/-- Witness for C7 at concrete modules: a 17-page minimum is rejected with
rule "resource-limits" and an unbounded memory is rejected by the default
memory rule. -/
theorem c7_memory_limits_witness :
    (∃ e, ValidateResourceLimits ⟨[⟨"m", .mem 17 (some 17)⟩], [⟨"env", some "f", .func [] []⟩]⟩
        DefaultResourceLimits = .error e ∧ e.rule = "resource-limits")
    ∧ validateMemoryOperations [⟨"m", .mem 1 none⟩]
        ⟨.memory, "default-memory", [], ["memory.grow"], none⟩
        = .error ⟨"unbounded memory growth not allowed", "default-memory", none⟩
    ∧ ValidateSecurityRules ⟨[⟨"m", .mem 1 none⟩], []⟩ defaultSecurityRules
        = .error ⟨"unbounded memory growth not allowed", "default-memory", none⟩ :=
  ⟨c7_memory_limits.1 ⟨[⟨"m", .mem 17 (some 17)⟩], [⟨"env", some "f", .func [] []⟩]⟩
      DefaultResourceLimits "m" 17 (some 17) (by decide) (by decide),
    c7_memory_limits.2.2.2.1 [⟨"m", .mem 1 none⟩]
      ⟨.memory, "default-memory", [], ["memory.grow"], none⟩ "m" 1 rfl (by decide) (by decide),
    c7_memory_limits.2.2.2.2 ⟨[⟨"m", .mem 1 none⟩], []⟩ "m" 1 (by decide)⟩

/-- Claim C8 counterexample: a module violating both a resource limit
(3 function exports against `MaxFunctions = 2`) and an always-failing custom
rule is rejected with the custom rule's error, not the resource-limit error:
`ValidateModule` runs security rules (custom ones included) before
`ValidateResourceLimits`. -/
theorem c8_custom_before_limits_cex :
    ValidateModule
        (NewDefaultValidator ⟨⟨1048576, 2, 100, 100, 100, 4, 16, 10000⟩, true,
          [⟨.custom, "always-fail", [], [], some (fun _ => some "boom")⟩]⟩)
        (fun _ => some ⟨[⟨"t1", .func [] []⟩, ⟨"t2", .func [] []⟩, ⟨"t3", .func [] []⟩], []⟩)
        [0]
      = .error ⟨"custom validation failed", "always-fail", some "boom"⟩
    ∧ (∃ e, ValidateResourceLimits
          ⟨[⟨"t1", .func [] []⟩, ⟨"t2", .func [] []⟩, ⟨"t3", .func [] []⟩], []⟩
          ⟨1048576, 2, 100, 100, 100, 4, 16, 10000⟩ = .error e ∧ e.rule = "resource-limits")
    ∧ "always-fail" ≠ "resource-limits" := by
  refine ⟨by rfl, ⟨_, rfl, rfl⟩, by decide⟩

/-- Claim C8 (amended): `DefaultValidator.ValidateModule` applies its checks
in the order size, parseability, default security rules, custom security
rules (in registration order, first error returned), and resource limits
(counts, memory, tables) last; a module violating both a resource limit and
a custom rule is therefore rejected with the custom-rule error. -/
theorem c8_validation_order_amended (v : DefaultValidator)
    (parse : Bytes → Option WasmModule) (bytes : Bytes) (mod : WasmModule)
    (e : ValidationError) :
    (contractSizeExceeded bytes v.config.ResourceLimits = true →
      ValidateModule v parse bytes
        = .error ⟨"contract size " ++ toString bytes.length ++ " exceeds maximum allowed "
            ++ toString v.config.ResourceLimits.MaxContractSize, "contract-size",
            some errResourceLimitExceeded⟩)
    ∧ (contractSizeExceeded bytes v.config.ResourceLimits = false → parse bytes = none →
      ValidateModule v parse bytes
        = .error ⟨"failed to parse module", "parse", some "invalid module"⟩)
    ∧ (contractSizeExceeded bytes v.config.ResourceLimits = false → parse bytes = some mod →
      ValidateSecurityRules mod v.defaultRules = .error e →
      ValidateModule v parse bytes = .error e)
    ∧ (contractSizeExceeded bytes v.config.ResourceLimits = false → parse bytes = some mod →
      ValidateSecurityRules mod v.defaultRules = .ok () →
      ValidateSecurityRules mod v.customRules = .error e →
      ValidateModule v parse bytes = .error e)
    ∧ (∀ (rulesA : List SecurityRule) (rule : SecurityRule) (rulesB : List SecurityRule),
      ValidateSecurityRules mod rulesA = .ok () →
      applySecurityRule mod rule = .error e →
      ValidateSecurityRules mod (rulesA ++ rule :: rulesB) = .error e) := by
  refine ⟨?_, ?_, ?_, ?_, ?_⟩
  · intro hsz
    unfold ValidateModule
    rw [hsz]
    rfl
  · intro hsz hp
    unfold ValidateModule ValidateModuleBody
    rw [hsz, hp]
    rfl
  · intro hsz hp hd
    unfold ValidateModule ValidateModuleBody
    rw [hsz, hp]
    simp only [Bool.false_eq_true, if_false]
    show (do
      ValidateSecurityRules mod v.defaultRules
      (if v.customRules.length > 0 then ValidateSecurityRules mod v.customRules else .ok ())
      ValidateResourceLimits mod v.config.ResourceLimits) = Except.error e
    rw [hd]
    rfl
  · intro hsz hp hdok hc
    have hne : v.customRules.length > 0 := by
      cases hcr : v.customRules with
      | nil =>
        rw [hcr] at hc
        exact absurd hc (by simp [ValidateSecurityRules])
      | cons a l => simp
    unfold ValidateModule ValidateModuleBody
    rw [hsz, hp]
    simp only [Bool.false_eq_true, if_false]
    show (do
      ValidateSecurityRules mod v.defaultRules
      (if v.customRules.length > 0 then ValidateSecurityRules mod v.customRules else .ok ())
      ValidateResourceLimits mod v.config.ResourceLimits) = Except.error e
    rw [hdok, if_pos hne, hc]
    rfl
  · intro rulesA rule rulesB hok happ
    induction rulesA with
    | nil =>
      simp only [List.nil_append, ValidateSecurityRules]
      rw [happ]
      rfl
    | cons a l ih =>
      simp only [ValidateSecurityRules] at hok
      cases ha : applySecurityRule mod a with
      | error e2 =>
        rw [ha] at hok
        exact absurd hok (by simp [Bind.bind, Except.bind])
      | ok u =>
        cases u
        rw [ha] at hok
        have hok2 : ValidateSecurityRules mod l = .ok () := hok
        rw [List.cons_append]
        simp only [ValidateSecurityRules]
        rw [ha]
        have := ih hok2
        exact this

/-- Witness for C8's amended statement: an oversized input fails on size
first, and a custom-rule failure is returned even though the module also
violates the function-count limit. -/
theorem c8_validation_order_amended_witness :
    ValidateModule (NewDefaultValidator ⟨⟨1, 1000, 100, 100, 100, 4, 16, 10000⟩, true, []⟩)
        (fun _ => some ⟨[], []⟩) [0, 0]
      = .error ⟨"contract size " ++ toString (([0, 0] : Bytes).length)
          ++ " exceeds maximum allowed " ++ toString
            (NewDefaultValidator
              ⟨⟨1, 1000, 100, 100, 100, 4, 16, 10000⟩, true,
                []⟩).config.ResourceLimits.MaxContractSize, "contract-size",
          some errResourceLimitExceeded⟩
    ∧ ValidateModule
        (NewDefaultValidator ⟨⟨1048576, 2, 100, 100, 100, 4, 16, 10000⟩, true,
          [⟨.custom, "always-boom", [], [], some (fun _ => some "boom2")⟩]⟩)
        (fun _ => some ⟨[⟨"u1", .func [] []⟩, ⟨"u2", .func [] []⟩, ⟨"u3", .func [] []⟩], []⟩)
        [0]
      = .error ⟨"custom validation failed", "always-boom", some "boom2"⟩ :=
  ⟨(c8_validation_order_amended
      (NewDefaultValidator ⟨⟨1, 1000, 100, 100, 100, 4, 16, 10000⟩, true, []⟩)
      (fun _ => some ⟨[], []⟩) [0, 0] ⟨[], []⟩
      ⟨"contract size " ++ toString (([0, 0] : Bytes).length)
        ++ " exceeds maximum allowed " ++ toString
          (NewDefaultValidator
            ⟨⟨1, 1000, 100, 100, 100, 4, 16, 10000⟩, true,
              []⟩).config.ResourceLimits.MaxContractSize, "contract-size",
        some errResourceLimitExceeded⟩).1 (by rfl),
    (c8_validation_order_amended
      (NewDefaultValidator ⟨⟨1048576, 2, 100, 100, 100, 4, 16, 10000⟩, true,
        [⟨.custom, "always-boom", [], [], some (fun _ => some "boom2")⟩]⟩)
      (fun _ => some ⟨[⟨"u1", .func [] []⟩, ⟨"u2", .func [] []⟩, ⟨"u3", .func [] []⟩], []⟩)
      [0] ⟨[⟨"u1", .func [] []⟩, ⟨"u2", .func [] []⟩, ⟨"u3", .func [] []⟩], []⟩
      ⟨"custom validation failed", "always-boom", some "boom2"⟩).2.2.2.1
      (by rfl) (by rfl) (by rfl) (by rfl)⟩
